import Mathlib

/-!
Verification of `autobot` (src/autobot/github.py): a GitHub reporting bot
that runs a fixed list of predicate checks over pull requests, issues and
their comments, and assembles the firing checks into a nested, pruned
report tree.

The definitions below are a shallow embedding of `GitHubAPI` and its
methods.  Platform objects (repositories, pull requests, issues, comments,
users, labels) are modelled as plain structures carrying exactly the
read-only fields the code consults; timestamps are seconds as `Int`
(so Python's `timedelta.days` is floor division by 86400, which for `Int`
is `/`, i.e. `Int.ediv`, when the divisor is positive); fields that may be
`None` in Python are `Option`s.
-/

namespace Autobot

/-- A GitHub account as consulted by the code: `user.login` and `user.url`. -/
structure User where
  login : String
  url : String
deriving DecidableEq

/-- An issue label: `label.name`, `label.color`, `label.url`. -/
structure Label where
  name : String
  color : String
  url : String
deriving DecidableEq

/-- A PR/issue comment.  The code reads `html_url`, `created_at`, `user`
and `body` (`body` may be absent). -/
structure Comment where
  html_url : String
  created_at : Int
  user : User
  body : Option String
deriving DecidableEq

/-- A pull request with the fields `GitHubAPI` reads.  `mergeable` stands
for `pr.refresh().mergeable`; `issue` for the result of `pr.issue()`
(`none` when the PR is not connected to an issue); `review_comments` and
`issue_comments` for the fetched comment sequences. -/
structure PullRequest where
  number : Nat
  html_url : String
  title : String
  created_at : Int
  body : Option String
  state : String
  user : User
  issue_url : String
  updated_at : Int
  requested_reviewers : List User
  mergeable : Bool
  issue : Option Nat
  review_comments : List Comment
  issue_comments : List Comment
deriving DecidableEq

/-- An issue with the fields `GitHubAPI` reads; `labels` and `comments`
stand for the fetched `issue.labels()` and `issue.comments()`. -/
structure Issue where
  number : Nat
  html_url : String
  title : String
  created_at : Int
  body : Option String
  state : String
  user : User
  labels : List Label
  comments : List Comment
deriving DecidableEq

/-- A repository with the fields the code reads, plus its fetched open
pull-request and issue listings. -/
structure Repo where
  clone_url : String
  created_at : Int
  description : Option String
  pull_requests : List PullRequest
  issues : List Issue
deriving DecidableEq

/-- An action report: in Python a one-entry dict mapping a label string to
the list of targeted maintainer logins. -/
structure ActionReport where
  label : String
  targets : List String
deriving DecidableEq

/-! ### Info extractors (section 4.1): `fetch_*_info` -/

/-- Projection of a user: the nested dicts with name and url. -/
structure UserInfo where
  name : String
  url : String
deriving DecidableEq

/-- Output shape of `fetch_comment_info`. -/
structure CommentInfo where
  url : String
  creation_date : Int
  user : UserInfo
deriving DecidableEq

/-- Output shape of `fetch_pr_info`. -/
structure PRInfo where
  id : Nat
  url : String
  title : String
  creation_date : Int
  description : Option String
  state : String
  user : UserInfo
  related_issue : String
deriving DecidableEq

/-- Output shape of a label entry inside `fetch_issue_info`. -/
structure LabelInfo where
  name : String
  color : String
  url : String
deriving DecidableEq

/-- Output shape of `fetch_issue_info`. -/
structure IssueInfo where
  id : Nat
  url : String
  title : String
  creation_date : Int
  description : Option String
  state : String
  labels : List LabelInfo
  user : UserInfo
deriving DecidableEq

/-- Output shape of `fetch_repo_info`. -/
structure RepoInfo where
  url : String
  creation_date : Int
  description : Option String
deriving DecidableEq

/-- `GitHubAPI.fetch_comment_info`. -/
def fetch_comment_info (c : Comment) : CommentInfo :=
  { url := c.html_url
    creation_date := c.created_at
    user := { name := c.user.login, url := c.user.url } }

/-- `GitHubAPI.fetch_pr_info`. -/
def fetch_pr_info (pr : PullRequest) : PRInfo :=
  { id := pr.number
    url := pr.html_url
    title := pr.title
    creation_date := pr.created_at
    description := pr.body
    state := pr.state
    user := { name := pr.user.login, url := pr.user.url }
    related_issue := pr.issue_url }

/-- `GitHubAPI.fetch_issue_info`. -/
def fetch_issue_info (i : Issue) : IssueInfo :=
  { id := i.number
    url := i.html_url
    title := i.title
    creation_date := i.created_at
    description := i.body
    state := i.state
    labels := i.labels.map fun l => { name := l.name, color := l.color, url := l.url }
    user := { name := i.user.login, url := i.user.url } }

/-- `GitHubAPI.fetch_repo_info`. -/
def fetch_repo_info (r : Repo) : RepoInfo :=
  { url := r.clone_url
    creation_date := r.created_at
    description := r.description }

/-! ### Predicate checks (section 4.2): `check_*` -/

/-- The mention candidates the code actually builds:
`[mention[1:] for mention in m.body]` iterates over the CHARACTERS of the
body string, so each candidate is a one-character string with its first
character stripped. -/
def mentionCandidates (s : String) : List String :=
  s.data.map fun c => (String.mk [c]).drop 1

/-- `GitHubAPI.check_mentions`.  The code only consults `m.body`, so the
embedding takes the body directly.  The Python guard `m.body and (...)`
makes a falsy body (absent or empty string) short-circuit to no match. -/
def check_mentions (body : Option String) (maintainers : List String) :
    List ActionReport :=
  let mentions := maintainers.filter fun login =>
    match body with
    | none => false
    | some s => !(s == "") && (mentionCandidates s).contains login
  if mentions.isEmpty then [] else [⟨"You've been mentioned here!", mentions⟩]

/-- `GitHubAPI.check_mergeable`: `pr.refresh().mergeable` is the
`mergeable` field. -/
def check_mergeable (pr : PullRequest) (maintainers : List String) :
    List ActionReport :=
  if pr.mergeable then [⟨"Merge this!", maintainers⟩] else []

/-- `GitHubAPI.check_review`: maintainers appearing among the requested
reviewers' logins. -/
def check_review (pr : PullRequest) (maintainers : List String) :
    List ActionReport :=
  let requested := maintainers.filter fun login =>
    (pr.requested_reviewers.map User.login).contains login
  if requested.isEmpty then [] else [⟨"Review this!", requested⟩]

/-- `GitHubAPI.check_if_connected_with_issue`: fires when `pr.issue()` is
`None`. -/
def check_if_connected_with_issue (pr : PullRequest)
    (maintainers : List String) : List ActionReport :=
  match pr.issue with
  | none => [⟨"Resolve not connected with issue!", maintainers⟩]
  | some _ => []

/-- Python's `(now - t).days` for timestamps in seconds: `timedelta.days`
is the floor of the total duration in days, and `Int` division by the
positive literal 86400 is exactly that floor. -/
def daysBetween (now t : Int) : Int :=
  (now - t) / 86400

/-- `GitHubAPI.check_close`: fires when
`(datetime.utcnow() - pr.updated_at).days >= 3 * 30`. -/
def check_close (now : Int) (pr : PullRequest) (maintainers : List String) :
    List ActionReport :=
  if daysBetween now pr.updated_at ≥ 3 * 30 then
    [⟨"Close this!", maintainers⟩]
  else []

/-- Substring containment on the character lists, Python's `"WIP" in s`. -/
def listContainsSub (l pat : List Char) : Bool :=
  (List.range (l.length + 1)).any fun i => (l.drop i).take pat.length == pat

/-- `GitHubAPI.check_follow_up`: fires when `"WIP" in pr.title` and
`(now - pr.updated_at).days >= 1 * 30`. -/
def check_follow_up (now : Int) (pr : PullRequest)
    (maintainers : List String) : List ActionReport :=
  if listContainsSub pr.title.data "WIP".data &&
      decide (daysBetween now pr.updated_at ≥ 1 * 30) then
    [⟨"Follow up on this!", maintainers⟩]
  else []

/-- `GitHubAPI.check_labels`: fires when some label is named `"RFC"`. -/
def check_labels (issue : Issue) (maintainers : List String) :
    List ActionReport :=
  if (issue.labels.filter fun l => l.name == "RFC").isEmpty then []
  else [⟨"Skip this for now!", maintainers⟩]

/-- `GitHubAPI.check_comments`: the Python guard
`comments and comments[-1].user.login not in maintainers` evaluates the
last-element access only when the list is non-empty. -/
def check_comments (issue : Issue) (maintainers : List String) :
    List ActionReport :=
  match issue.comments.getLast? with
  | none => []
  | some c =>
    if maintainers.contains c.user.login then []
    else [⟨"Follow up on this!", maintainers⟩]

/-! ### Report assembly (section 4.3): `*_report`

The Python report lists mix action dicts with comment/PR/issue group
dicts, so each level is a small sum type.  A loop of the form
`append entry if condition else skip` is a `List.filterMap`, and
`res.append(actions) if actions[key] else None` is a conditional
singleton. -/

/-- An output entry for one comment: its merged `actions` list and
`fetch_comment_info` projection. -/
structure CommentEntry where
  actions : List ActionReport
  info : CommentInfo
deriving DecidableEq

/-- An element of a pull request's report list: either an action dict or
one of the two comment group dicts. -/
inductive PRItem where
  | action (a : ActionReport)
  | reviewComments (cs : List CommentEntry)
  | issueComments (cs : List CommentEntry)
deriving DecidableEq

/-- An element of an issue's report list: either an action dict or the
comment group dict. -/
inductive IssueItem where
  | action (a : ActionReport)
  | comments (cs : List CommentEntry)
deriving DecidableEq

/-- An output entry for one pull request. -/
structure PREntry where
  actions : List PRItem
  info : PRInfo
deriving DecidableEq

/-- An output entry for one issue. -/
structure IssueEntry where
  actions : List IssueItem
  info : IssueInfo
deriving DecidableEq

/-- An element of a repository's report list: the `prs` group or the
`issues` group. -/
inductive RepoItem where
  | prs (l : List PREntry)
  | issues (l : List IssueEntry)
deriving DecidableEq

/-- An output entry for one repository. -/
structure RepoEntry where
  actions : List RepoItem
  info : RepoInfo
deriving DecidableEq

/-- The top-level `repos` group dict. -/
structure ReportGroup where
  repos : List RepoEntry
deriving DecidableEq

/-- `GitHubAPI.comment_report`: `comment_filters = [check_mentions]`. -/
def comment_report (c : Comment) (maintainers : List String) :
    List ActionReport :=
  check_mentions c.body maintainers

/-- The concatenated results of `pr_filters` in their fixed order:
`[check_mergeable, check_review, check_if_connected_with_issue,
check_mentions, check_close, check_follow_up]`. -/
def prFiltersAll (now : Int) (pr : PullRequest) (maintainers : List String) :
    List ActionReport :=
  check_mergeable pr maintainers ++ check_review pr maintainers ++
    check_if_connected_with_issue pr maintainers ++
    check_mentions pr.body maintainers ++ check_close now pr maintainers ++
    check_follow_up now pr maintainers

/-- The concatenated results of `issue_filters` in their fixed order:
`[check_labels, check_comments, check_mentions]`. -/
def issueFiltersAll (issue : Issue) (maintainers : List String) :
    List ActionReport :=
  check_labels issue maintainers ++ check_comments issue maintainers ++
    check_mentions issue.body maintainers

/-- One iteration of the comment loops in `pr_report`/`issue_report`: the
entry is appended only when the comment's own report is non-empty. -/
def commentEntryOf (maintainers : List String) (c : Comment) :
    Option CommentEntry :=
  let rep := comment_report c maintainers
  if rep.isEmpty then none else some ⟨rep, fetch_comment_info c⟩

/-- `GitHubAPI.pr_report`: predicate results, then the `review_comments`
group if non-empty, then the `issue_comments` group if non-empty. -/
def pr_report (now : Int) (pr : PullRequest) (maintainers : List String) :
    List PRItem :=
  let res := (prFiltersAll now pr maintainers).map PRItem.action
  let rc := pr.review_comments.filterMap (commentEntryOf maintainers)
  let res := res ++ if rc.isEmpty then [] else [PRItem.reviewComments rc]
  let ic := pr.issue_comments.filterMap (commentEntryOf maintainers)
  res ++ if ic.isEmpty then [] else [PRItem.issueComments ic]

/-- `GitHubAPI.issue_report`: predicate results, then the `comments`
group if non-empty. -/
def issue_report (issue : Issue) (maintainers : List String) :
    List IssueItem :=
  let res := (issueFiltersAll issue maintainers).map IssueItem.action
  let cg := issue.comments.filterMap (commentEntryOf maintainers)
  res ++ if cg.isEmpty then [] else [IssueItem.comments cg]

/-- One iteration of the PR loop in `repo_report`: non-open PRs are
skipped, and an entry is appended only when `pr_report` is non-empty. -/
def prEntryOf (now : Int) (maintainers : List String) (pr : PullRequest) :
    Option PREntry :=
  if pr.state ≠ "open" then none
  else
    let rep := pr_report now pr maintainers
    if rep.isEmpty then none else some ⟨rep, fetch_pr_info pr⟩

/-- One iteration of the issue loop in `repo_report`. -/
def issueEntryOf (maintainers : List String) (issue : Issue) :
    Option IssueEntry :=
  if issue.state ≠ "open" then none
  else
    let rep := issue_report issue maintainers
    if rep.isEmpty then none else some ⟨rep, fetch_issue_info issue⟩

/-- `GitHubAPI.repo_report`: the `prs` group if non-empty, then the
`issues` group if non-empty. -/
def repo_report (now : Int) (repo : Repo) (maintainers : List String) :
    List RepoItem :=
  let prs := repo.pull_requests.filterMap (prEntryOf now maintainers)
  let res : List RepoItem := if prs.isEmpty then [] else [RepoItem.prs prs]
  let issues := repo.issues.filterMap (issueEntryOf maintainers)
  res ++ if issues.isEmpty then [] else [RepoItem.issues issues]

/-- One iteration of the repository loop in `report`: `client` stands for
`GH_CLIENT.repository(OWNER, name)`, and each configured pair carries the
repository name and its maintainer list. -/
def repoEntryOf (now : Int) (client : String → Repo)
    (p : String × List String) : Option RepoEntry :=
  let repo_obj := client p.1
  let rep := repo_report now repo_obj p.2
  if rep.isEmpty then none else some ⟨rep, fetch_repo_info repo_obj⟩

/-- The body of `GitHubAPI.report` (without the `lazy_func` decoration):
the `repos` group wrapped in a singleton when non-empty. -/
def report (now : Int) (client : String → Repo)
    (repos : List (String × List String)) : List ReportGroup :=
  let entries := repos.filterMap (repoEntryOf now client)
  if entries.isEmpty then [] else [⟨entries⟩]

/-! ### Spec-side mention matching, for comparison with the source -/

/-- Split a character list into whitespace-delimited words. -/
def splitWordsAux : List Char → List Char → List (List Char)
  | [], acc => [acc.reverse]
  | c :: rest, acc =>
    if c.isWhitespace then acc.reverse :: splitWordsAux rest []
    else splitWordsAux rest (c :: acc)

/-- Modelled from the spec: tokenize the body by treating any
`@`-prefixed substring (here: whitespace-delimited word) as a mention
candidate; strip the leading `@`. -/
def mentionCandidatesSpec (s : String) : List String :=
  (splitWordsAux s.data []).filterMap fun w =>
    match w with
    | '@' :: rest => some (String.mk rest)
    | _ => none

/-- Modelled from the spec: the mentions check as the spec's matching
policy describes it — a maintainer matches when their account name equals
some `@`-prefixed candidate with the leading `@` stripped. -/
def check_mentions_spec (body : Option String) (maintainers : List String) :
    List ActionReport :=
  let mentions := maintainers.filter fun login =>
    match body with
    | none => false
    | some s => !(s == "") && (mentionCandidatesSpec s).contains login
  if mentions.isEmpty then [] else [⟨"You've been mentioned here!", mentions⟩]

/-! ### Prunedness of the output tree

A node of the output is pruned when it carries at least one non-empty
action list and every group it contains is itself non-empty and pruned. -/

/-- Every comment entry of a group carries a non-empty action list. -/
def commentEntriesPruned (l : List CommentEntry) : Prop :=
  ∀ e ∈ l, e.actions ≠ []

/-- A PR-level item is pruned: comment groups are non-empty and their
entries carry non-empty action lists. -/
def prItemPruned : PRItem → Prop
  | .action _ => True
  | .reviewComments l => l ≠ [] ∧ commentEntriesPruned l
  | .issueComments l => l ≠ [] ∧ commentEntriesPruned l

/-- An issue-level item is pruned. -/
def issueItemPruned : IssueItem → Prop
  | .action _ => True
  | .comments l => l ≠ [] ∧ commentEntriesPruned l

/-- A pull request entry is pruned: non-empty action list, pruned items. -/
def prEntryPruned (e : PREntry) : Prop :=
  e.actions ≠ [] ∧ ∀ i ∈ e.actions, prItemPruned i

/-- An issue entry is pruned. -/
def issueEntryPruned (e : IssueEntry) : Prop :=
  e.actions ≠ [] ∧ ∀ i ∈ e.actions, issueItemPruned i

/-- A repository-level group is pruned: non-empty, with pruned entries. -/
def repoItemPruned : RepoItem → Prop
  | .prs l => l ≠ [] ∧ ∀ e ∈ l, prEntryPruned e
  | .issues l => l ≠ [] ∧ ∀ e ∈ l, issueEntryPruned e

/-- A repository entry is pruned. -/
def repoEntryPruned (e : RepoEntry) : Prop :=
  e.actions ≠ [] ∧ ∀ i ∈ e.actions, repoItemPruned i

/-- The whole output is pruned: every emitted group is non-empty and its
entries are pruned, recursively. -/
def reportPruned (r : List ReportGroup) : Prop :=
  ∀ g ∈ r, g.repos ≠ [] ∧ ∀ e ∈ g.repos, repoEntryPruned e

/-! ### Concrete sample entities, used to instantiate theorems -/

/-- A sample maintainer account. -/
def userAlice : User := ⟨"alice", "users/alice"⟩

/-- A sample non-maintainer account. -/
def userCarol : User := ⟨"carol", "users/carol"⟩

/-- A sample comment authored by a non-maintainer, whose body mentions
nobody. -/
def commentCarol : Comment := ⟨"comments/1", 5, userCarol, some "hello"⟩

/-- A sample open pull request for which no predicate fires at `now = 0`:
not mergeable, no requested reviewer, connected to an issue, no body,
freshly updated, no `WIP` in the title. -/
def prQuiet : PullRequest :=
  { number := 1
    html_url := "prs/1"
    title := "a title"
    created_at := 0
    body := none
    state := "open"
    user := userAlice
    issue_url := "issues/1"
    updated_at := 0
    requested_reviewers := []
    mergeable := false
    issue := some 1
    review_comments := [commentCarol]
    issue_comments := []
    }

/-- A sample issue with a single comment by a non-maintainer. -/
def issueSample : Issue :=
  { number := 5
    html_url := "issues/5"
    title := "an issue"
    created_at := 0
    body := none
    state := "open"
    user := userAlice
    labels := [⟨"RFC", "fff", "labels/rfc"⟩]
    comments := [commentCarol]
    }

/-- A sample issue with no comments at all. -/
def issueNoComments : Issue :=
  { number := 6
    html_url := "issues/6"
    title := "quiet issue"
    created_at := 0
    body := none
    state := "open"
    user := userAlice
    labels := []
    comments := []
    }

/-! ## Supporting lemmas -/

/-- Dropping one character from a one-character string leaves the empty
string: each of the code's mention candidates is `""`. -/
theorem singleton_drop_one (c : Char) : (String.mk [c]).drop 1 = "" := by
  rw [String.drop_eq]
  rfl

/-- The code's candidate list is just `""` repeated once per character of
the body. -/
theorem mentionCandidates_eq_replicate (s : String) :
    mentionCandidates s = List.replicate s.data.length "" := by
  unfold mentionCandidates
  rw [List.map_congr_left fun c _ => singleton_drop_one c]
  exact List.map_const s.data ""

/-! ## Claims -/

/-- C5: the stale check fires exactly when `now - updated_at ≥ 90` days,
and when it fires it returns the label `Close this!` targeting all
maintainers in the list. -/
theorem check_close_iff_90_days (now : Int) (pr : PullRequest)
    (ms : List String) :
    check_close now pr ms =
      if now - pr.updated_at ≥ 90 * 86400 then [⟨"Close this!", ms⟩]
      else [] := by
  unfold check_close daysBetween
  split <;> split <;> first | rfl | (exfalso; omega)

/-- C4 (counterexample): a pull request whose `updated_at` is exactly 90
days (7776000 seconds) before now DOES fire the stale check, refuting the
claim that it does not. -/
theorem check_close_boundary_cex :
    (7776000 : Int) - prQuiet.updated_at = 90 * 86400 ∧
    check_close 7776000 prQuiet ["alice"] = [⟨"Close this!", ["alice"]⟩] := by
  constructor <;> decide

/-- C4 (amended): for every pull request whose `updated_at` timestamp is
exactly 90 days before the fixed now instant, the stale check DOES fire
(the boundary `≥ 90` is inclusive). -/
theorem check_close_at_exactly_90_days (now : Int) (pr : PullRequest)
    (ms : List String) (h : now - pr.updated_at = 90 * 86400) :
    check_close now pr ms = [⟨"Close this!", ms⟩] := by
  have hd : daysBetween now pr.updated_at = 90 := by
    unfold daysBetween
    omega
  simp [check_close, hd]

/-- Witness for the amended C4 at a concrete pull request. -/
theorem check_close_at_exactly_90_days_witness :
    check_close 7776000 prQuiet ["alice", "bob"] =
      [⟨"Close this!", ["alice", "bob"]⟩] :=
  check_close_at_exactly_90_days 7776000 prQuiet ["alice", "bob"] (by decide)

/-- C6: for an issue with at least one comment, the stale-comment check
does not fire when the last comment's author is a maintainer, and fires
with the label `Follow up on this!` targeting all maintainers when the
author is not a maintainer. -/
theorem check_comments_last_author (issue : Issue) (ms : List String)
    (c : Comment) (h : issue.comments.getLast? = some c) :
    check_comments issue ms =
      if ms.contains c.user.login then []
      else [⟨"Follow up on this!", ms⟩] := by
  unfold check_comments
  rw [h]

/-- Witness for C6: a concrete issue whose single comment is authored by
the non-maintainer carol fires the check targeting the maintainers. -/
theorem check_comments_last_author_witness :
    issueSample.comments.getLast? = some commentCarol ∧
    check_comments issueSample ["alice"] =
      if ["alice"].contains commentCarol.user.login then []
      else [⟨"Follow up on this!", ["alice"]⟩] :=
  ⟨by decide, check_comments_last_author issueSample ["alice"] commentCarol
    (by decide)⟩

/-- C7: a subject whose body is absent or the empty string never triggers
the mentions check, for every maintainer list. -/
theorem check_mentions_absent_body (ms : List String) :
    check_mentions none ms = [] ∧ check_mentions (some "") ms = [] := by
  constructor <;> simp [check_mentions]

/-- C9: since every mention candidate the code builds is the empty
string, the mentions check returns no action whenever no maintainer login
is the empty string. -/
theorem check_mentions_never_fires (body : Option String)
    (ms : List String) (h : "" ∉ ms) :
    check_mentions body ms = [] := by
  unfold check_mentions
  have hf : (ms.filter fun login =>
      match body with
      | none => false
      | some s => !(s == "") && (mentionCandidates s).contains login) = [] := by
    rw [List.filter_eq_nil_iff]
    intro login hlogin
    cases body with
    | none => simp
    | some s =>
      simp only [Bool.and_eq_true, not_and]
      intro _ hc
      have hmem : login ∈ mentionCandidates s := by
        simpa [List.elem_iff] using hc
      rw [mentionCandidates_eq_replicate] at hmem
      exact h (List.eq_of_mem_replicate hmem ▸ hlogin)
  simp only [hf, List.isEmpty_nil, if_pos]

/-- Witness for C9 at a concrete body and maintainer list. -/
theorem check_mentions_never_fires_witness :
    "" ∉ ["alice", "bob"] ∧
    check_mentions (some "ping @alice and @bob") ["alice", "bob"] = [] :=
  ⟨by decide, check_mentions_never_fires (some "ping @alice and @bob")
    ["alice", "bob"] (by decide)⟩

/-- C10: for an issue with no comments at all the stale-comment check
returns no action; the last-comment access is guarded by the emptiness
test. -/
theorem check_comments_empty_list (issue : Issue) (ms : List String)
    (h : issue.comments = []) :
    check_comments issue ms = [] := by
  unfold check_comments
  rw [h]
  rfl

/-- Witness for C10 at a concrete comment-free issue. -/
theorem check_comments_empty_list_witness :
    issueNoComments.comments = [] ∧
    check_comments issueNoComments ["alice"] = [] :=
  ⟨rfl, check_comments_empty_list issueNoComments ["alice"] rfl⟩

/-- An action-report list is admissible for maintainer list `ms`: it has
at most one element and its targets are all drawn from `ms`. -/
def admissibleFor (ms : List String) (res : List ActionReport) : Prop :=
  res.length ≤ 1 ∧ ∀ a ∈ res, ∀ t ∈ a.targets, t ∈ ms

/-- The empty result is admissible. -/
theorem admissibleFor_nil (ms : List String) : admissibleFor ms [] := by
  constructor
  · simp
  · intro a ha
    cases ha

/-- A singleton result whose targets come from `ms` is admissible. -/
theorem admissibleFor_single (ms : List String) (label : String)
    (ts : List String) (h : ∀ t ∈ ts, t ∈ ms) :
    admissibleFor ms [⟨label, ts⟩] := by
  constructor
  · simp
  · intro a ha t ht
    rw [List.mem_singleton] at ha
    subst ha
    exact h t ht

/-- The common shape `if cond then [one report targeting all of ms] else
nothing` is admissible. -/
theorem admissibleFor_ite_all (ms : List String) (label : String)
    (c : Prop) [Decidable c] :
    admissibleFor ms (if c then [⟨label, ms⟩] else []) := by
  split
  · exact admissibleFor_single ms label ms fun t ht => ht
  · exact admissibleFor_nil ms

/-- The common shape firing on the non-empty filtering of `ms` is
admissible. -/
theorem admissibleFor_filter (ms : List String) (label : String)
    (p : String → Bool) :
    admissibleFor ms
      (if (ms.filter p).isEmpty then [] else [⟨label, ms.filter p⟩]) := by
  split
  · exact admissibleFor_nil ms
  · exact admissibleFor_single ms label (ms.filter p)
      fun t ht => (List.mem_filter.mp ht).1

/-- C8: every predicate check returns zero or one action report, and a
returned report's target list is drawn from the maintainer list passed
in. -/
theorem checks_admissible (now : Int) (body : Option String)
    (pr : PullRequest) (issue : Issue) (ms : List String) :
    admissibleFor ms (check_mentions body ms) ∧
    admissibleFor ms (check_mergeable pr ms) ∧
    admissibleFor ms (check_review pr ms) ∧
    admissibleFor ms (check_if_connected_with_issue pr ms) ∧
    admissibleFor ms (check_close now pr ms) ∧
    admissibleFor ms (check_follow_up now pr ms) ∧
    admissibleFor ms (check_labels issue ms) ∧
    admissibleFor ms (check_comments issue ms) := by
  refine ⟨?_, ?_, ?_, ?_, ?_, ?_, ?_, ?_⟩
  · exact admissibleFor_filter ms "You've been mentioned here!" _
  · exact admissibleFor_ite_all ms "Merge this!" _
  · exact admissibleFor_filter ms "Review this!" _
  · unfold check_if_connected_with_issue
    cases pr.issue with
    | none =>
      exact admissibleFor_single ms "Resolve not connected with issue!" ms
        fun t ht => ht
    | some k => exact admissibleFor_nil ms
  · exact admissibleFor_ite_all ms "Close this!" _
  · exact admissibleFor_ite_all ms "Follow up on this!" _
  · unfold check_labels
    split
    · exact admissibleFor_nil ms
    · exact admissibleFor_single ms "Skip this for now!" ms fun t ht => ht
  · unfold check_comments
    split
    · exact admissibleFor_nil ms
    · split
      · exact admissibleFor_nil ms
      · exact admissibleFor_single ms "Follow up on this!" ms fun t ht => ht

/-- C1 (code bug): on a body that plainly mentions the maintainer
`alice`, the implemented check returns no action — the char-by-char scan
only ever produces empty-string candidates — while the mention-matching
policy of the spec fires with exactly the matched maintainer. -/
theorem check_mentions_divergence :
    check_mentions (some "hi @alice") ["alice"] = [] ∧
    check_mentions_spec (some "hi @alice") ["alice"] =
      [⟨"You've been mentioned here!", ["alice"]⟩] := by
  constructor <;> decide

/-- Membership in a conditionally emitted singleton group: the guard was
false (the group is non-empty) and the member is the group itself. -/
theorem mem_groupIf {α : Type} {x y : α} {b : Bool}
    (h : x ∈ if b then [] else [y]) : b = false ∧ x = y := by
  cases b
  · rw [if_neg (by simp)] at h
    rw [List.mem_singleton] at h
    exact ⟨rfl, h⟩
  · rw [if_pos rfl] at h
    cases h

/-- A comment entry is only ever built from a non-empty comment report. -/
theorem commentEntryOf_pruned (ms : List String) (c : Comment)
    (e : CommentEntry) (h : commentEntryOf ms c = some e) :
    e.actions ≠ [] := by
  simp only [commentEntryOf] at h
  split at h
  · cases h
  · rename_i hne
    cases h
    intro hnil
    exact hne (by simp only [List.isEmpty_iff]; exact hnil)

/-- Every comment group filterMap produces only pruned entries. -/
theorem filterMap_commentEntryOf_pruned (ms : List String)
    (l : List Comment) :
    commentEntriesPruned (l.filterMap (commentEntryOf ms)) := by
  intro e he
  rcases List.mem_filterMap.mp he with ⟨c, _, hc⟩
  exact commentEntryOf_pruned ms c e hc

/-- Every item emitted by `pr_report` is pruned. -/
theorem pr_report_items_pruned (now : Int) (pr : PullRequest)
    (ms : List String) :
    ∀ i ∈ pr_report now pr ms, prItemPruned i := by
  intro i hi
  simp only [pr_report, List.mem_append] at hi
  rcases hi with (hi | hi) | hi
  · rcases List.mem_map.mp hi with ⟨a, _, rfl⟩
    trivial
  · rcases mem_groupIf hi with ⟨hne, rfl⟩
    exact ⟨fun hnil => by simp [hnil] at hne,
      filterMap_commentEntryOf_pruned ms pr.review_comments⟩
  · rcases mem_groupIf hi with ⟨hne, rfl⟩
    exact ⟨fun hnil => by simp [hnil] at hne,
      filterMap_commentEntryOf_pruned ms pr.issue_comments⟩

/-- Every item emitted by `issue_report` is pruned. -/
theorem issue_report_items_pruned (issue : Issue) (ms : List String) :
    ∀ i ∈ issue_report issue ms, issueItemPruned i := by
  intro i hi
  simp only [issue_report, List.mem_append] at hi
  rcases hi with hi | hi
  · rcases List.mem_map.mp hi with ⟨a, _, rfl⟩
    trivial
  · rcases mem_groupIf hi with ⟨hne, rfl⟩
    exact ⟨fun hnil => by simp [hnil] at hne,
      filterMap_commentEntryOf_pruned ms issue.comments⟩

/-- A pull request entry is only ever built pruned. -/
theorem prEntryOf_pruned (now : Int) (ms : List String) (pr : PullRequest)
    (e : PREntry) (h : prEntryOf now ms pr = some e) : prEntryPruned e := by
  simp only [prEntryOf] at h
  split at h
  · cases h
  · split at h
    · cases h
    · rename_i hne
      cases h
      exact ⟨fun hnil => hne (by simp only [List.isEmpty_iff]; exact hnil),
        pr_report_items_pruned now pr ms⟩

/-- An issue entry is only ever built pruned. -/
theorem issueEntryOf_pruned (ms : List String) (issue : Issue)
    (e : IssueEntry) (h : issueEntryOf ms issue = some e) :
    issueEntryPruned e := by
  simp only [issueEntryOf] at h
  split at h
  · cases h
  · split at h
    · cases h
    · rename_i hne
      cases h
      exact ⟨fun hnil => hne (by simp only [List.isEmpty_iff]; exact hnil),
        issue_report_items_pruned issue ms⟩

/-- Every item emitted by `repo_report` is pruned. -/
theorem repo_report_items_pruned (now : Int) (repo : Repo)
    (ms : List String) :
    ∀ i ∈ repo_report now repo ms, repoItemPruned i := by
  intro i hi
  simp only [repo_report, List.mem_append] at hi
  rcases hi with hi | hi
  · rcases mem_groupIf hi with ⟨hne, rfl⟩
    refine ⟨fun hnil => by simp [hnil] at hne, ?_⟩
    intro e he
    rcases List.mem_filterMap.mp he with ⟨pr, _, hpr⟩
    exact prEntryOf_pruned now ms pr e hpr
  · rcases mem_groupIf hi with ⟨hne, rfl⟩
    refine ⟨fun hnil => by simp [hnil] at hne, ?_⟩
    intro e he
    rcases List.mem_filterMap.mp he with ⟨issue, _, hiss⟩
    exact issueEntryOf_pruned ms issue e hiss

/-- A repository entry is only ever built pruned. -/
theorem repoEntryOf_pruned (now : Int) (client : String → Repo)
    (p : String × List String) (e : RepoEntry)
    (h : repoEntryOf now client p = some e) : repoEntryPruned e := by
  simp only [repoEntryOf] at h
  split at h
  · cases h
  · rename_i hne
    cases h
    exact ⟨fun hnil => hne (by simp only [List.isEmpty_iff]; exact hnil),
      repo_report_items_pruned now (client p.1) p.2⟩

/-- A sample repository holding the quiet pull request and the sample
issue. -/
def repoSample : Repo :=
  { clone_url := "repos/r1.git"
    created_at := 0
    description := some "sample repository"
    pull_requests := [prQuiet]
    issues := [issueSample]
    }

/-- C2: every node of the output tree is pruned — groups are emitted only
non-empty and every entry carries a non-empty action list — and a pull
request for which no predicate fires and none of whose comments produce
an action yields no entry anywhere in the output. -/
theorem report_pruning (now : Int) (client : String → Repo)
    (repos : List (String × List String)) (ms : List String)
    (pr : PullRequest)
    (h1 : prFiltersAll now pr ms = [])
    (h2 : ∀ c ∈ pr.review_comments, comment_report c ms = [])
    (h3 : ∀ c ∈ pr.issue_comments, comment_report c ms = []) :
    reportPruned (report now client repos) ∧ prEntryOf now ms pr = none := by
  constructor
  · intro g hg
    simp only [report] at hg
    rcases mem_groupIf hg with ⟨hne, rfl⟩
    constructor
    · intro hnil
      simp only at hnil
      simp [hnil] at hne
    · intro e he
      simp only at he
      rcases List.mem_filterMap.mp he with ⟨p, _, hp⟩
      exact repoEntryOf_pruned now client p e hp
  · have hrc : pr.review_comments.filterMap (commentEntryOf ms) = [] := by
      rw [List.filterMap_eq_nil_iff]
      intro c hc
      unfold commentEntryOf
      rw [h2 c hc]
      rfl
    have hic : pr.issue_comments.filterMap (commentEntryOf ms) = [] := by
      rw [List.filterMap_eq_nil_iff]
      intro c hc
      unfold commentEntryOf
      rw [h3 c hc]
      rfl
    have hrep : pr_report now pr ms = [] := by
      simp only [pr_report, hrc, hic, h1]
      rfl
    unfold prEntryOf
    split
    · rfl
    · rw [hrep]
      rfl

/-- Witness for C2 at a concrete client, configuration and quiet pull
request. -/
theorem report_pruning_witness :
    prFiltersAll 0 prQuiet ["alice"] = [] ∧
    (∀ c ∈ prQuiet.review_comments, comment_report c ["alice"] = []) ∧
    reportPruned (report 0 (fun _ => repoSample) [("r1", ["alice"])]) ∧
    prEntryOf 0 ["alice"] prQuiet = none := by
  refine ⟨by decide, by decide, ?_, ?_⟩
  · exact (report_pruning 0 (fun _ => repoSample) [("r1", ["alice"])]
      ["alice"] prQuiet (by decide) (by decide) (by decide)).1
  · exact (report_pruning 0 (fun _ => repoSample) [("r1", ["alice"])]
      ["alice"] prQuiet (by decide) (by decide) (by decide)).2

end Autobot
